import Mathlib

/-!
Verification of the GhostLedger ACB engine (`src/ghostledger/acb_engine.py`).

The engine is a sequential state machine over a cost-basis pool
`(total_cost, total_btc)`; Python `Decimal` arithmetic is embedded as exact
rationals (`ℚ`) with the engine's single quantization point —
`Decimal.quantize(Decimal('0.01'), ROUND_HALF_UP)` — embedded as explicit
round-half-away-from-zero to cents.  (Decimal's 28-significant-digit division
context is abstracted to exact division; the two differ only at half-cent ties
beyond 28 significant digits, which none of the statements below approach.)
Python `datetime` is embedded as an absolute instant measured in days (a
rational, keeping sub-day resolution) together with the calendar year, which
the engine reads only in `get_summary`; `timedelta(days=30)` becomes the
rational `30`, and `strftime('%Y-%m-%d')` is abstracted to a textual rendering
of the timestamp.
-/

namespace GhostLedger

/-- Embedded timestamp: `t` is the absolute instant in days, `year` the
calendar year carried alongside it (read only by the summarizer's year
filter). -/
structure DateTime where
  t : ℚ
  year : ℤ
  deriving DecidableEq, Repr

/-- Embeds the `Transaction` dataclass (acb_engine.py lines 34-47). -/
structure Transaction where
  date : DateTime
  tx_type : String
  amount_btc : ℚ
  price_cad : ℚ
  fee_cad : ℚ := 0
  label : String := ""
  deriving DecidableEq, Repr

/-- Embeds the `LedgerEntry` dataclass (acb_engine.py lines 50-77). -/
structure LedgerEntry where
  date : DateTime
  tx_type : String
  amount_btc : ℚ
  price_cad : ℚ
  fee_cad : ℚ
  total_cost_after : ℚ
  total_btc_after : ℚ
  acb_per_btc : ℚ
  proceeds : Option ℚ := none
  cost_basis : Option ℚ := none
  capital_gain : Option ℚ := none
  superficial_loss_flag : Bool := false
  superficial_loss_note : String := ""
  label : String := ""
  deriving DecidableEq, Repr

/-- Round-half-up in the sense of `decimal.ROUND_HALF_UP`: round to the
nearest integer with ties going away from zero. -/
def roundHalfUp (q : ℚ) : ℤ :=
  if 0 ≤ q then ⌊q + 1 / 2⌋ else -⌊-q + 1 / 2⌋

/-- `x.quantize(Decimal('0.01'), rounding=ROUND_HALF_UP)`: round to 2 decimal
places, half away from zero. -/
def roundCents (q : ℚ) : ℚ :=
  (roundHalfUp (q * 100) : ℚ) / 100

/-- Embeds the `acb_per_btc` property (acb_engine.py lines 101-117): zero on a
non-positive pool, otherwise the quantized quotient. -/
def acbPerBtc (total_cost total_btc : ℚ) : ℚ :=
  if total_btc ≤ 0 then 0
  else roundCents (total_cost / total_btc)

/-- Mutable state of `ACBCalculator` (acb_engine.py lines 90-99). -/
structure EngineState where
  total_cost : ℚ
  total_btc : ℚ
  ledger : List LedgerEntry
  recentTransactions : List Transaction
  deriving DecidableEq, Repr

/-- State produced by `ACBCalculator.__init__`. -/
def initState : EngineState :=
  { total_cost := 0, total_btc := 0, ledger := [], recentTransactions := [] }

/-- The acquisition kinds recognized at acb_engine.py line 136. -/
def isAcquisitionKind (t : String) : Prop :=
  t = "buy" ∨ t = "receive"

instance (t : String) : Decidable (isAcquisitionKind t) := by
  unfold isAcquisitionKind; infer_instance

/-- The disposal kinds recognized at acb_engine.py line 138. -/
def isDisposalKind (t : String) : Prop :=
  t = "sell" ∨ t = "spend" ∨ t = "send"

instance (t : String) : Decidable (isDisposalKind t) := by
  unfold isDisposalKind; infer_instance

/-- A kind the processing loop does not skip. -/
def recognizedKind (t : String) : Prop :=
  isAcquisitionKind t ∨ isDisposalKind t

instance (t : String) : Decidable (recognizedKind t) := by
  unfold recognizedKind; infer_instance

/-- Textual rendering of a timestamp, abstracting `strftime('%Y-%m-%d')`. -/
def dateStr (d : DateTime) : String :=
  toString d.year ++ "-" ++ toString d.t

/-- The note returned by `_check_superficial_loss` when a disqualifying prior
acquisition is found (acb_engine.py lines 290-296); it names the acquisition
date and reminds about the forward 30-day window. -/
def flaggedLossNote (d : String) : String :=
  "POTENTIAL SUPERFICIAL LOSS: BTC acquired on " ++ d ++
    " (within 30 days before this sale). Review if still held 30 days after sale."

/-- The note returned by `_check_superficial_loss` when no disqualifying prior
acquisition exists (acb_engine.py lines 300-303). -/
def forwardWindowNote : String :=
  "Note: Check for purchases within 30 days AFTER this sale for superficial loss."

/-- The loop condition of `_check_superficial_loss` (acb_engine.py lines
287-289): an acquisition kind whose date satisfies
`window_start ≤ date < loss_date` with `window_start = loss_date - 30` days. -/
def slPred (tx r : Transaction) : Bool :=
  decide (isAcquisitionKind r.tx_type) &&
    (decide (tx.date.t - 30 ≤ r.date.t) && decide (r.date.t < tx.date.t))

/-- Embeds `_check_superficial_loss` (acb_engine.py lines 259-303): scan the
already-processed transactions for an acquisition whose date lies in the
half-open 30-day window before the disposal; return the first match. -/
def checkSuperficialLoss (recent : List Transaction) (tx : Transaction) :
    Bool × String :=
  match recent.find? (slPred tx) with
  | some r => (true, flaggedLossNote (dateStr r.date))
  | none => (false, forwardWindowNote)

/-- Embeds `_process_acquisition` (acb_engine.py lines 149-183): pool update
and entry, the loop's list appends being done by `step`. -/
def processAcquisition (s : EngineState) (tx : Transaction) :
    EngineState × LedgerEntry :=
  let acquisition_cost := tx.amount_btc * tx.price_cad + tx.fee_cad
  let total_cost := s.total_cost + acquisition_cost
  let total_btc := s.total_btc + tx.amount_btc
  let entry : LedgerEntry :=
    { date := tx.date, tx_type := tx.tx_type, amount_btc := tx.amount_btc,
      price_cad := tx.price_cad, fee_cad := tx.fee_cad,
      total_cost_after := total_cost, total_btc_after := total_btc,
      acb_per_btc := acbPerBtc total_cost total_btc, label := tx.label }
  ({ s with total_cost := total_cost, total_btc := total_btc }, entry)

/-- Embeds `_process_disposition` (acb_engine.py lines 185-257): gain
computation from the pre-mutation pool, superficial-loss check on losses,
proportional pool reduction, and the epsilon clamp that zeroes the pool when
`total_btc` falls below `1e-8` after mutation.  Mirroring the source, the
per-unit cost is read twice (`cost_basis`, `cost_removed`) from the unchanged
pre-mutation pool, while the emitted entry's `acb_per_btc` is re-read from the
post-mutation pool. -/
def processDisposition (s : EngineState) (tx : Transaction) :
    EngineState × LedgerEntry :=
  let proceeds := tx.amount_btc * tx.price_cad - tx.fee_cad
  let cost_basis := tx.amount_btc * acbPerBtc s.total_cost s.total_btc
  let capital_gain := proceeds - cost_basis
  let sl : Bool × String :=
    if capital_gain < 0 then checkSuperficialLoss s.recentTransactions tx
    else (false, "")
  let cost_removed := tx.amount_btc * acbPerBtc s.total_cost s.total_btc
  let tc := s.total_cost - cost_removed
  let tb := s.total_btc - tx.amount_btc
  let tb2 := if tb < 0.00000001 then (0 : ℚ) else tb
  let tc2 := if tb < 0.00000001 then (0 : ℚ) else tc
  let entry : LedgerEntry :=
    { date := tx.date, tx_type := tx.tx_type, amount_btc := tx.amount_btc,
      price_cad := tx.price_cad, fee_cad := tx.fee_cad,
      total_cost_after := tc2, total_btc_after := tb2,
      acb_per_btc := acbPerBtc tc2 tb2,
      proceeds := some proceeds, cost_basis := some cost_basis,
      capital_gain := some capital_gain,
      superficial_loss_flag := sl.1, superficial_loss_note := sl.2,
      label := tx.label }
  ({ s with total_cost := tc2, total_btc := tb2 }, entry)

/-- One iteration of the processing loop (acb_engine.py lines 135-145):
dispatch on kind, append the entry to the ledger and the transaction to the
superficial-loss history, or skip silently. -/
def step (s : EngineState) (tx : Transaction) : EngineState :=
  if isAcquisitionKind tx.tx_type then
    let p := processAcquisition s tx
    { p.1 with ledger := p.1.ledger ++ [p.2],
               recentTransactions := p.1.recentTransactions ++ [tx] }
  else if isDisposalKind tx.tx_type then
    let p := processDisposition s tx
    { p.1 with ledger := p.1.ledger ++ [p.2],
               recentTransactions := p.1.recentTransactions ++ [tx] }
  else s

/-- Ordering used by `sorted(transactions, key=lambda x: x.date)`. -/
def txle (a b : Transaction) : Prop :=
  a.date.t ≤ b.date.t

instance : DecidableRel txle := fun a b =>
  inferInstanceAs (Decidable (a.date.t ≤ b.date.t))

instance : IsTotal Transaction txle :=
  ⟨fun a b => le_total a.date.t b.date.t⟩

instance : IsTrans Transaction txle :=
  ⟨fun _ _ _ h1 h2 => le_trans h1 h2⟩

/-- Python's `sorted` is a stable ascending sort; it is embedded as insertion
sort, which is stable (proved below), so the two agree extensionally. -/
def sortTxs (txs : List Transaction) : List Transaction :=
  List.insertionSort txle txs

/-- Embeds `process_transactions` (acb_engine.py lines 119-147): reset every
piece of calculator state, sort, then fold the loop body. -/
def processTransactions (s : EngineState) (txs : List Transaction) :
    EngineState :=
  let s0 := { s with ledger := [], total_cost := 0, total_btc := 0,
                     recentTransactions := [] }
  (sortTxs txs).foldl step s0

/-- The ledger returned by `process_transactions` on a fresh calculator. -/
def ledgerOf (txs : List Transaction) : List LedgerEntry :=
  (processTransactions initState txs).ledger

/-- Embeds the dictionary returned by `get_summary`
(acb_engine.py lines 344-354). -/
structure Summary where
  total_gains : ℚ
  total_losses : ℚ
  net_capital_gain : ℚ
  taxable_capital_gain : ℚ
  inclusion_rate : ℚ
  superficial_loss_count : ℕ
  current_holdings_btc : ℚ
  current_acb_total : ℚ
  current_acb_per_btc : ℚ
  deriving DecidableEq, Repr

/-- The slice of the ledger `get_summary` aggregates (acb_engine.py lines
315-318).  Python's `if tax_year:` is truthiness: both `None` and `0` leave
the ledger unfiltered. -/
def summaryEntries (ledger : List LedgerEntry) (tax_year : Option ℤ) :
    List LedgerEntry :=
  match tax_year with
  | none => ledger
  | some y => if y = 0 then ledger else ledger.filter fun e => e.date.year = y

/-- The accumulator body of `get_summary`'s loop (acb_engine.py lines
324-334), over `(total_gains, total_losses, superficial_count)`. -/
def summaryFold (acc : ℚ × ℚ × ℕ) (e : LedgerEntry) : ℚ × ℚ × ℕ :=
  match e.capital_gain with
  | none => acc
  | some g =>
    if 0 ≤ g then (acc.1 + g, acc.2.1, acc.2.2)
    else if e.superficial_loss_flag then (acc.1, acc.2.1, acc.2.2 + 1)
    else (acc.1, acc.2.1 + |g|, acc.2.2)

/-- Embeds `get_summary` (acb_engine.py lines 305-354). -/
def getSummary (s : EngineState) (tax_year : Option ℤ) : Summary :=
  let entries := summaryEntries s.ledger tax_year
  let acc := entries.foldl summaryFold (0, 0, 0)
  let net_gain := acc.1 - acc.2.1
  let inclusion_rate : ℚ := 0.50
  { total_gains := acc.1, total_losses := acc.2.1,
    net_capital_gain := net_gain,
    taxable_capital_gain := max 0 (net_gain * inclusion_rate),
    inclusion_rate := inclusion_rate,
    superficial_loss_count := acc.2.2,
    current_holdings_btc := s.total_btc,
    current_acb_total := s.total_cost,
    current_acb_per_btc := acbPerBtc s.total_cost s.total_btc }

/-- Specification-shaped gains total, following the spec's words: the sum of
`gain` over entries carrying a gain with `gain ≥ 0`. -/
def specTotalGains (es : List LedgerEntry) : ℚ :=
  (es.filterMap fun e =>
    e.capital_gain.bind fun g => if 0 ≤ g then some g else none).sum

/-- Specification-shaped losses total, following the spec's words: the sum of
`|gain|` over entries with `gain < 0` and the superficial-loss flag unset. -/
def specTotalLosses (es : List LedgerEntry) : ℚ :=
  (es.filterMap fun e =>
    e.capital_gain.bind fun g =>
      if g < 0 ∧ e.superficial_loss_flag = false then some |g| else none).sum

/-- Specification-shaped flagged-loss count: entries with `gain < 0` and the
superficial-loss flag set. -/
def specFlaggedCount (es : List LedgerEntry) : ℕ :=
  es.countP fun e =>
    match e.capital_gain with
    | some g => decide (g < 0) && e.superficial_loss_flag
    | none => false

/-- A placeholder entry used only as the default of `List.getD` in concrete
statements; the indices used are always in range. -/
def dummyEntry : LedgerEntry :=
  { date := ⟨0, 0⟩, tx_type := "", amount_btc := 0, price_cad := 0,
    fee_cad := 0, total_cost_after := 0, total_btc_after := 0,
    acb_per_btc := 0 }

/-- First fixture transaction: acquire 0.5 units at 60000 with fee 50. -/
def fixTx0 : Transaction :=
  { date := ⟨0, 2024⟩, tx_type := "buy", amount_btc := 0.5,
    price_cad := 60000, fee_cad := 50, label := "DCA Purchase" }

/-- Second fixture transaction: acquire 0.25 units at 65000 with fee 30. -/
def fixTx1 : Transaction :=
  { date := ⟨36, 2024⟩, tx_type := "buy", amount_btc := 0.25,
    price_cad := 65000, fee_cad := 30, label := "DCA Purchase" }

/-- Third fixture transaction: dispose 0.3 units at 70000 with fee 25. -/
def fixTx2 : Transaction :=
  { date := ⟨55, 2024⟩, tx_type := "sell", amount_btc := 0.3,
    price_cad := 70000, fee_cad := 25, label := "Taking profit" }

/-- The spec's fixture sequence (spec §8; mirrors `create_test_transactions`):
two acquisitions then a disposal. -/
def fixtureTxs : List Transaction :=
  [fixTx0, fixTx1, fixTx2]

/-! Helper lemmas: evaluation of the rounding and of the engine's record
fields.  The projection lemmas are definitional; the rounding lemmas reduce a
concrete `roundCents` to an integer-bound check that `norm_num` can settle. -/

lemma roundCents_nonneg_eq (q : ℚ) (n : ℤ) (h0 : 0 ≤ q * 100)
    (hn : (n : ℚ) ≤ q * 100 + 1 / 2) (hn1 : q * 100 + 1 / 2 < (n : ℚ) + 1) :
    roundCents q = (n : ℚ) / 100 := by
  unfold roundCents roundHalfUp
  rw [if_pos h0, Int.floor_eq_iff.mpr ⟨hn, hn1⟩]

lemma acbPerBtc_pos_eq (C U : ℚ) (n : ℤ) (hU : 0 < U) (h0 : 0 ≤ C / U * 100)
    (hn : (n : ℚ) ≤ C / U * 100 + 1 / 2) (hn1 : C / U * 100 + 1 / 2 < (n : ℚ) + 1) :
    acbPerBtc C U = (n : ℚ) / 100 := by
  unfold acbPerBtc
  rw [if_neg (not_le.mpr hU), roundCents_nonneg_eq _ n h0 hn hn1]

lemma acbPerBtc_nonpos (C U : ℚ) (hU : U ≤ 0) : acbPerBtc C U = 0 := by
  unfold acbPerBtc
  rw [if_pos hU]

lemma procAcq_state (s : EngineState) (tx : Transaction) :
    (processAcquisition s tx).1 =
      { s with total_cost := s.total_cost + (tx.amount_btc * tx.price_cad + tx.fee_cad),
               total_btc := s.total_btc + tx.amount_btc } := rfl

lemma procAcq_entry (s : EngineState) (tx : Transaction) :
    (processAcquisition s tx).2 =
      { date := tx.date, tx_type := tx.tx_type, amount_btc := tx.amount_btc,
        price_cad := tx.price_cad, fee_cad := tx.fee_cad,
        total_cost_after := s.total_cost + (tx.amount_btc * tx.price_cad + tx.fee_cad),
        total_btc_after := s.total_btc + tx.amount_btc,
        acb_per_btc := acbPerBtc (s.total_cost + (tx.amount_btc * tx.price_cad + tx.fee_cad))
          (s.total_btc + tx.amount_btc),
        label := tx.label } := rfl

lemma procDisp_cost_basis (s : EngineState) (tx : Transaction) :
    (processDisposition s tx).2.cost_basis =
      some (tx.amount_btc * acbPerBtc s.total_cost s.total_btc) := rfl

lemma procDisp_proceeds (s : EngineState) (tx : Transaction) :
    (processDisposition s tx).2.proceeds =
      some (tx.amount_btc * tx.price_cad - tx.fee_cad) := rfl

lemma procDisp_capital_gain (s : EngineState) (tx : Transaction) :
    (processDisposition s tx).2.capital_gain =
      some (tx.amount_btc * tx.price_cad - tx.fee_cad -
        tx.amount_btc * acbPerBtc s.total_cost s.total_btc) := rfl

lemma procDisp_state_total_btc (s : EngineState) (tx : Transaction) :
    (processDisposition s tx).1.total_btc =
      (if s.total_btc - tx.amount_btc < 0.00000001 then (0 : ℚ)
       else s.total_btc - tx.amount_btc) := rfl

lemma procDisp_state_total_cost (s : EngineState) (tx : Transaction) :
    (processDisposition s tx).1.total_cost =
      (if s.total_btc - tx.amount_btc < 0.00000001 then (0 : ℚ)
       else s.total_cost - tx.amount_btc * acbPerBtc s.total_cost s.total_btc) := rfl

lemma procDisp_entry_btc_after (s : EngineState) (tx : Transaction) :
    (processDisposition s tx).2.total_btc_after =
      (processDisposition s tx).1.total_btc := rfl

lemma procDisp_entry_cost_after (s : EngineState) (tx : Transaction) :
    (processDisposition s tx).2.total_cost_after =
      (processDisposition s tx).1.total_cost := rfl

lemma procDisp_entry_acb (s : EngineState) (tx : Transaction) :
    (processDisposition s tx).2.acb_per_btc =
      acbPerBtc (processDisposition s tx).1.total_cost
        (processDisposition s tx).1.total_btc := rfl

lemma procDisp_flag (s : EngineState) (tx : Transaction) :
    (processDisposition s tx).2.superficial_loss_flag =
      (if tx.amount_btc * tx.price_cad - tx.fee_cad -
            tx.amount_btc * acbPerBtc s.total_cost s.total_btc < 0 then
        checkSuperficialLoss s.recentTransactions tx
       else (false, "")).1 := rfl

lemma procDisp_note (s : EngineState) (tx : Transaction) :
    (processDisposition s tx).2.superficial_loss_note =
      (if tx.amount_btc * tx.price_cad - tx.fee_cad -
            tx.amount_btc * acbPerBtc s.total_cost s.total_btc < 0 then
        checkSuperficialLoss s.recentTransactions tx
       else (false, "")).2 := rfl

lemma procDisp_amount (s : EngineState) (tx : Transaction) :
    (processDisposition s tx).2.amount_btc = tx.amount_btc := rfl

lemma procDisp_state_ledger (s : EngineState) (tx : Transaction) :
    (processDisposition s tx).1.ledger = s.ledger := rfl

lemma procDisp_state_recent (s : EngineState) (tx : Transaction) :
    (processDisposition s tx).1.recentTransactions = s.recentTransactions := rfl

lemma disposal_not_acquisition (t : String) (h : isDisposalKind t) :
    ¬ isAcquisitionKind t := by
  rcases h with h | h | h <;> subst h <;> intro hc <;>
    rcases hc with hc | hc <;> simp at hc

lemma step_acq (s : EngineState) (tx : Transaction)
    (h : isAcquisitionKind tx.tx_type) :
    step s tx =
      { (processAcquisition s tx).1 with
        ledger := s.ledger ++ [(processAcquisition s tx).2],
        recentTransactions := s.recentTransactions ++ [tx] } := by
  unfold step
  rw [if_pos h]
  rfl

lemma step_disp (s : EngineState) (tx : Transaction)
    (h : isDisposalKind tx.tx_type) :
    step s tx =
      { (processDisposition s tx).1 with
        ledger := s.ledger ++ [(processDisposition s tx).2],
        recentTransactions := s.recentTransactions ++ [tx] } := by
  unfold step
  rw [if_neg (disposal_not_acquisition _ h), if_pos h]
  rfl

lemma step_skip (s : EngineState) (tx : Transaction)
    (h : ¬ recognizedKind tx.tx_type) :
    step s tx = s := by
  unfold step
  rw [if_neg (fun ha => h (Or.inl ha)), if_neg (fun hd => h (Or.inr hd))]

/-! Concrete evaluation of the fixture run. -/

lemma acb_fix1 : acbPerBtc 30050 (1 / 2) = 60100 := by
  rw [acbPerBtc_pos_eq 30050 (1 / 2) 6010000 (by norm_num) (by norm_num)
    (by norm_num) (by norm_num)]
  norm_num

lemma acb_fix2 : acbPerBtc 46330 (3 / 4) = 6177333 / 100 := by
  rw [acbPerBtc_pos_eq 46330 (3 / 4) 6177333 (by norm_num) (by norm_num)
    (by norm_num) (by norm_num)]
  norm_num

lemma acb_fix3 : acbPerBtc (27798001 / 1000) (9 / 20) = 3088667 / 50 := by
  rw [acbPerBtc_pos_eq (27798001 / 1000) (9 / 20) 6177334 (by norm_num)
    (by norm_num) (by norm_num) (by norm_num)]
  norm_num

/-- Ledger entry emitted for `fixTx0`. -/
def fixE0 : LedgerEntry :=
  { date := ⟨0, 2024⟩, tx_type := "buy", amount_btc := 0.5,
    price_cad := 60000, fee_cad := 50, total_cost_after := 30050,
    total_btc_after := 0.5, acb_per_btc := 60100, label := "DCA Purchase" }

/-- Ledger entry emitted for `fixTx1`: note the pool is 46330 = 30050 + 16280
(the spec's §8 figure 46280.00 drops the first acquisition's fee). -/
def fixE1 : LedgerEntry :=
  { date := ⟨36, 2024⟩, tx_type := "buy", amount_btc := 0.25,
    price_cad := 65000, fee_cad := 30, total_cost_after := 46330,
    total_btc_after := 0.75, acb_per_btc := 61773.33, label := "DCA Purchase" }

/-- Ledger entry emitted for `fixTx2`: cost basis `0.3 * 61773.33 = 18531.999`
is an unrounded product, and the entry's `acb_per_btc` snapshot, re-quantized
from the post-mutation pool, is `61773.34`. -/
def fixE2 : LedgerEntry :=
  { date := ⟨55, 2024⟩, tx_type := "sell", amount_btc := 0.3,
    price_cad := 70000, fee_cad := 25, total_cost_after := 27798.001,
    total_btc_after := 0.45, acb_per_btc := 61773.34,
    proceeds := some 20975, cost_basis := some 18531.999,
    capital_gain := some 2443.001, superficial_loss_flag := false,
    superficial_loss_note := "", label := "Taking profit" }

/-- Engine state after the first fixture transaction. -/
def fixS1 : EngineState :=
  { total_cost := 30050, total_btc := 0.5, ledger := [fixE0],
    recentTransactions := [fixTx0] }

/-- Engine state after the first two fixture transactions. -/
def fixS2 : EngineState :=
  { total_cost := 46330, total_btc := 0.75, ledger := [fixE0, fixE1],
    recentTransactions := [fixTx0, fixTx1] }

/-- Engine state after the whole fixture run. -/
def fixS3 : EngineState :=
  { total_cost := 27798.001, total_btc := 0.45,
    ledger := [fixE0, fixE1, fixE2],
    recentTransactions := [fixTx0, fixTx1, fixTx2] }

lemma fixStep1 : step initState fixTx0 = fixS1 := by
  rw [step_acq _ _ (by simp [fixTx0, isAcquisitionKind])]
  rw [procAcq_state, procAcq_entry]
  simp only [fixS1, fixE0, fixTx0, initState]
  norm_num [acb_fix1]

lemma fixStep2 : step fixS1 fixTx1 = fixS2 := by
  rw [step_acq _ _ (by simp [fixTx1, isAcquisitionKind])]
  rw [procAcq_state, procAcq_entry]
  simp only [fixS2, fixS1, fixE1, fixTx1]
  norm_num [acb_fix2]

lemma fixStep3 : step fixS2 fixTx2 = fixS3 := by
  rw [step_disp _ _ (by simp [fixTx2, isDisposalKind])]
  unfold processDisposition
  simp only [fixS3, fixS2, fixE2, fixTx2]
  norm_num [acb_fix2, acb_fix3]

lemma fixtureSorted : List.Sorted txle fixtureTxs := by
  unfold fixtureTxs
  refine List.Pairwise.cons ?_ (List.Pairwise.cons ?_
    (List.Pairwise.cons ?_ List.Pairwise.nil))
  · intro b hb
    rcases List.mem_cons.mp hb with rfl | hb2
    · norm_num [txle, fixTx0, fixTx1]
    · rcases List.mem_cons.mp hb2 with rfl | hb3
      · norm_num [txle, fixTx0, fixTx2]
      · simp at hb3
  · intro b hb
    rcases List.mem_cons.mp hb with rfl | hb2
    · norm_num [txle, fixTx1, fixTx2]
    · simp at hb2
  · intro b hb
    simp at hb

lemma sortTxs_fixture : sortTxs fixtureTxs = fixtureTxs :=
  List.Sorted.insertionSort_eq fixtureSorted

lemma fixtureRun : processTransactions initState fixtureTxs = fixS3 := by
  unfold processTransactions
  rw [sortTxs_fixture]
  simp only [fixtureTxs, List.foldl_cons, List.foldl_nil]
  show step (step (step initState fixTx0) fixTx1) fixTx2 = fixS3
  rw [fixStep1, fixStep2, fixStep3]

/-! Further concrete runs used by individual claims. -/

lemma sorted_two (a b : Transaction) (h : txle a b) :
    List.Sorted txle [a, b] := by
  refine List.Pairwise.cons ?_
    (List.Pairwise.cons (fun c hc => by simp at hc) List.Pairwise.nil)
  intro c hc
  rcases List.mem_cons.mp hc with rfl | hc2
  · exact h
  · simp at hc2

/-- Acquisition that makes the pool `(0.005, 1)`: one unit bought at a price
of half a cent. -/
def c3Tx0 : Transaction :=
  { date := ⟨0, 2024⟩, tx_type := "buy", amount_btc := 1, price_cad := 0.005 }

/-- Disposal of all but `1e-8` units of that pool at price zero. -/
def c3Tx1 : Transaction :=
  { date := ⟨1, 2024⟩, tx_type := "sell", amount_btc := 0.99999999,
    price_cad := 0 }

/-- Input on which the pool's `total_cost` goes negative. -/
def c3Txs : List Transaction :=
  [c3Tx0, c3Tx1]

lemma acb_c3 : acbPerBtc (1 / 200) 1 = 1 / 100 := by
  rw [acbPerBtc_pos_eq (1 / 200) 1 1 (by norm_num) (by norm_num) (by norm_num)
    (by norm_num)]
  norm_num

/-- Entry emitted for `c3Tx0`. -/
def c3E0 : LedgerEntry :=
  { date := ⟨0, 2024⟩, tx_type := "buy", amount_btc := 1, price_cad := 0.005,
    fee_cad := 0, total_cost_after := 0.005, total_btc_after := 1,
    acb_per_btc := 0.01 }

/-- State after `c3Tx0`. -/
def c3S1 : EngineState :=
  { total_cost := 0.005, total_btc := 1, ledger := [c3E0],
    recentTransactions := [c3Tx0] }

lemma c3Step1 : step initState c3Tx0 = c3S1 := by
  rw [step_acq _ _ (by simp [c3Tx0, isAcquisitionKind])]
  rw [procAcq_state, procAcq_entry]
  simp only [c3S1, c3E0, c3Tx0, initState]
  norm_num [acb_c3]

lemma c3Run : processTransactions initState c3Txs = step c3S1 c3Tx1 := by
  unfold processTransactions
  rw [show sortTxs c3Txs = c3Txs from
    List.Sorted.insertionSort_eq (sorted_two _ _ (by norm_num [txle, c3Tx0, c3Tx1]))]
  simp only [c3Txs, List.foldl_cons, List.foldl_nil]
  show step (step initState c3Tx0) c3Tx1 = step c3S1 c3Tx1
  rw [c3Step1]

/-! Claim theorems. -/

/-- C1, counterexample.  On the fixture run, the single rounded per-unit cost
computed from the pre-mutation pool `(46330, 0.75)` is `61773.33`, and it is
used for the disposal's cost basis — but the per-unit-cost value reported in
that disposal's ledger entry is `61773.34` (re-quantized from the
post-mutation pool), so the claim's final equality is false. -/
theorem c1_counterexample :
    acbPerBtc fixS2.total_cost fixS2.total_btc = 61773.33 ∧
    ((ledgerOf fixtureTxs).getD 2 dummyEntry).cost_basis =
      some ((0.3 : ℚ) * 61773.33) ∧
    ((ledgerOf fixtureTxs).getD 2 dummyEntry).acb_per_btc = 61773.34 ∧
    (61773.34 : ℚ) ≠ 61773.33 := by
  have hl : ledgerOf fixtureTxs = [fixE0, fixE1, fixE2] := by
    unfold ledgerOf
    rw [fixtureRun]
    rfl
  refine ⟨?_, ?_, ?_, by norm_num⟩
  · simp only [fixS2]
    norm_num [acb_fix2]
  · rw [hl]
    simp only [List.getD]
    norm_num [fixE2]
  · rw [hl]
    simp only [List.getD]
    norm_num [fixE2]

/-- C1, amended: a single per-unit cost `A`, rounded half-up to cents from the
pre-mutation pool, is used both for the disposal's cost basis
(`cost_basis = quantity * A`) and for the pool update
(`total_cost := total_cost - quantity * A`, subject to the epsilon clamp);
the per-unit cost reported in the disposal's ledger entry, however, is
re-quantized from the post-mutation pool and may differ from `A`. -/
theorem c1_amended (s : EngineState) (tx : Transaction) :
    (processDisposition s tx).2.cost_basis =
      some (tx.amount_btc * acbPerBtc s.total_cost s.total_btc) ∧
    (processDisposition s tx).1.total_cost =
      (if s.total_btc - tx.amount_btc < 0.00000001 then (0 : ℚ)
       else s.total_cost - tx.amount_btc * acbPerBtc s.total_cost s.total_btc) ∧
    (processDisposition s tx).2.acb_per_btc =
      acbPerBtc (processDisposition s tx).2.total_cost_after
        (processDisposition s tx).2.total_btc_after := by
  refine ⟨procDisp_cost_basis s tx, procDisp_state_total_cost s tx, ?_⟩
  rw [procDisp_entry_cost_after, procDisp_entry_btc_after]
  exact procDisp_entry_acb s tx

/-- C2, counterexample.  Processing the fixture yields a pool of `46330.00`
after the two acquisitions (the claim's `46280.00` drops the first fee), hence
`per_unit_cost = 61773.33`, `cost_basis = 18531.999` (not rounded to cents)
and `gain = 2443.001`, refuting the claimed `46280.00 / 61706.67 / 18512.00 /
2463.00`. -/
theorem c2_counterexample :
    ((ledgerOf fixtureTxs).getD 1 dummyEntry).total_cost_after = 46330 ∧
    (46330 : ℚ) ≠ 46280 ∧
    ((ledgerOf fixtureTxs).getD 1 dummyEntry).acb_per_btc = 61773.33 ∧
    (61773.33 : ℚ) ≠ 61706.67 ∧
    ((ledgerOf fixtureTxs).getD 2 dummyEntry).cost_basis = some 18531.999 ∧
    (18531.999 : ℚ) ≠ 18512 ∧
    ((ledgerOf fixtureTxs).getD 2 dummyEntry).capital_gain = some 2443.001 ∧
    (2443.001 : ℚ) ≠ 2463 := by
  have hl : ledgerOf fixtureTxs = [fixE0, fixE1, fixE2] := by
    unfold ledgerOf
    rw [fixtureRun]
    rfl
  rw [hl]
  simp only [List.getD]
  norm_num [fixE1, fixE2]

/-- C2, amended: the fixture run emits exactly the three entries `fixE0,
fixE1, fixE2`; after the two acquisitions the pool is `total_cost = 46330.00`
and `total_units = 0.75` with `per_unit_cost = 61773.33`; the disposal has
`proceeds = 20975.00`, `cost_basis = 0.3 * 61773.33 = 18531.999` (the product
is not re-rounded), `gain = 2443.001`, and no superficial-loss flag. -/
theorem c2_amended :
    ledgerOf fixtureTxs = [fixE0, fixE1, fixE2] ∧
    fixE1.total_cost_after = 46330 ∧
    fixE1.total_btc_after = 0.75 ∧
    fixE1.acb_per_btc = 61773.33 ∧
    fixE2.proceeds = some 20975 ∧
    fixE2.cost_basis = some ((0.3 : ℚ) * 61773.33) ∧
    fixE2.capital_gain = some 2443.001 ∧
    fixE2.superficial_loss_flag = false := by
  refine ⟨?_, rfl, rfl, rfl, rfl, by norm_num [fixE2], rfl, rfl⟩
  unfold ledgerOf
  rw [fixtureRun]
  rfl

/-- C3, code bug.  The pool invariant `total_cost ≥ 0` fails: acquiring one
unit at price `0.005` and then disposing of `0.99999999` units at price zero
leaves `total_btc = 1e-8` (so the epsilon clamp, which only inspects
`total_btc < 1e-8`, does not fire) and
`total_cost = 0.005 - 0.99999999 * 0.01 = -0.0049999999 < 0`, contradicting
the code's own "Prevent negative values" clamp comment and the spec's
`total_cost ≥ 0` invariant. -/
theorem c3_negative_total_cost :
    (processTransactions initState c3Txs).total_cost =
      -(49999999 / 10000000000 : ℚ) ∧
    (processTransactions initState c3Txs).total_cost < 0 ∧
    (processTransactions initState c3Txs).total_btc = 1 / 100000000 := by
  rw [c3Run, step_disp _ _ (by simp [c3Tx1, isDisposalKind])]
  have hbtc : (processDisposition c3S1 c3Tx1).1.total_btc = 1 / 100000000 := by
    rw [procDisp_state_total_btc]
    simp only [c3S1, c3Tx1]
    norm_num
  have hcost : (processDisposition c3S1 c3Tx1).1.total_cost =
      -(49999999 / 10000000000 : ℚ) := by
    rw [procDisp_state_total_cost]
    simp only [c3S1, c3Tx1]
    norm_num [acb_c3]
  exact ⟨hcost, by rw [hcost]; norm_num, hbtc⟩

/-- C5, confirmed: after the pool mutation of a disposal, if `total_btc` is
strictly below `1e-8` then both pool components — and the entry's snapshot of
them — are exactly zero; otherwise both keep their mutated values
unclamped. -/
theorem c5_clamp (s : EngineState) (tx : Transaction) :
    (s.total_btc - tx.amount_btc < 0.00000001 →
      (processDisposition s tx).1.total_btc = 0 ∧
      (processDisposition s tx).1.total_cost = 0 ∧
      (processDisposition s tx).2.total_btc_after = 0 ∧
      (processDisposition s tx).2.total_cost_after = 0) ∧
    (¬ s.total_btc - tx.amount_btc < 0.00000001 →
      (processDisposition s tx).1.total_btc = s.total_btc - tx.amount_btc ∧
      (processDisposition s tx).1.total_cost =
        s.total_cost - tx.amount_btc * acbPerBtc s.total_cost s.total_btc ∧
      (processDisposition s tx).2.total_btc_after =
        s.total_btc - tx.amount_btc ∧
      (processDisposition s tx).2.total_cost_after =
        s.total_cost - tx.amount_btc * acbPerBtc s.total_cost s.total_btc) := by
  constructor <;> intro h
  · refine ⟨?_, ?_, ?_, ?_⟩
    · rw [procDisp_state_total_btc, if_pos h]
    · rw [procDisp_state_total_cost, if_pos h]
    · rw [procDisp_entry_btc_after, procDisp_state_total_btc, if_pos h]
    · rw [procDisp_entry_cost_after, procDisp_state_total_cost, if_pos h]
  · refine ⟨?_, ?_, ?_, ?_⟩
    · rw [procDisp_state_total_btc, if_neg h]
    · rw [procDisp_state_total_cost, if_neg h]
    · rw [procDisp_entry_btc_after, procDisp_state_total_btc, if_neg h]
    · rw [procDisp_entry_cost_after, procDisp_state_total_cost, if_neg h]

/-- Disposal of the whole pool of `fixS1`, used to exercise the clamp. -/
def c5TxAll : Transaction :=
  { date := ⟨1, 2024⟩, tx_type := "sell", amount_btc := 0.5, price_cad := 100 }

/-- Partial disposal from `fixS1`, leaving the pool above the epsilon. -/
def c5TxPart : Transaction :=
  { date := ⟨1, 2024⟩, tx_type := "sell", amount_btc := 0.2, price_cad := 100 }

/-- Witness for `c5_clamp`: both branches at concrete inputs. -/
theorem c5_clamp_witness :
    ((processDisposition fixS1 c5TxAll).1.total_btc = 0 ∧
      (processDisposition fixS1 c5TxAll).1.total_cost = 0 ∧
      (processDisposition fixS1 c5TxAll).2.total_btc_after = 0 ∧
      (processDisposition fixS1 c5TxAll).2.total_cost_after = 0) ∧
    ((processDisposition fixS1 c5TxPart).1.total_btc =
        fixS1.total_btc - c5TxPart.amount_btc ∧
      (processDisposition fixS1 c5TxPart).1.total_cost =
        fixS1.total_cost -
          c5TxPart.amount_btc * acbPerBtc fixS1.total_cost fixS1.total_btc ∧
      (processDisposition fixS1 c5TxPart).2.total_btc_after =
        fixS1.total_btc - c5TxPart.amount_btc ∧
      (processDisposition fixS1 c5TxPart).2.total_cost_after =
        fixS1.total_cost -
          c5TxPart.amount_btc * acbPerBtc fixS1.total_cost fixS1.total_btc) :=
  ⟨(c5_clamp fixS1 c5TxAll).1 (by norm_num [fixS1, c5TxAll]),
   (c5_clamp fixS1 c5TxPart).2 (by norm_num [fixS1, c5TxPart])⟩

/-- C9, confirmed: a transaction of unrecognized kind leaves the whole engine
state (pool, ledger, history) unchanged, and removing it from the loop's input
does not change the fold — the engine just continues. -/
theorem c9_skip :
    (∀ (s : EngineState) (tx : Transaction),
      ¬ recognizedKind tx.tx_type → step s tx = s) ∧
    (∀ (s : EngineState) (l1 l2 : List Transaction) (tx : Transaction),
      ¬ recognizedKind tx.tx_type →
      List.foldl step s (l1 ++ tx :: l2) = List.foldl step s (l1 ++ l2)) := by
  refine ⟨step_skip, ?_⟩
  intro s l1 l2 tx h
  rw [List.foldl_append, List.foldl_cons, step_skip _ _ h, ← List.foldl_append]

/-- A transaction whose kind the engine does not recognize. -/
def c9Tx : Transaction :=
  { date := ⟨2, 2024⟩, tx_type := "transfer", amount_btc := 1, price_cad := 1 }

/-- Witness for `c9_skip` at a concrete unrecognized transaction. -/
theorem c9_skip_witness :
    step fixS1 c9Tx = fixS1 ∧
    List.foldl step initState ([fixTx0] ++ c9Tx :: [fixTx2]) =
      List.foldl step initState ([fixTx0] ++ [fixTx2]) :=
  ⟨c9_skip.1 fixS1 c9Tx (by
      simp [recognizedKind, isAcquisitionKind, isDisposalKind, c9Tx]),
   c9_skip.2 initState [fixTx0] [fixTx2] c9Tx (by
      simp [recognizedKind, isAcquisitionKind, isDisposalKind, c9Tx])⟩

/-- Disposal at price zero against the non-empty pool left by `fixTx0`. -/
def c10Tx1 : Transaction :=
  { date := ⟨1, 2024⟩, tx_type := "sell", amount_btc := 0.3, price_cad := 0 }

/-- Input for the zero-price disposal run. -/
def c10Txs : List Transaction :=
  [fixTx0, c10Tx1]

/-- C10, counterexample.  A disposal with `unit_price = 0` against the
non-empty pool `(30050, 0.5)` emits `cost_basis = 0.3 * 60100 = 18030 ≠ 0`:
a zero price does not zero the derived cost fields. -/
theorem c10_counterexample :
    c10Tx1.price_cad = 0 ∧
    ((ledgerOf c10Txs).getD 1 dummyEntry).cost_basis = some 18030 ∧
    (18030 : ℚ) ≠ 0 := by
  have hrun : processTransactions initState c10Txs = step fixS1 c10Tx1 := by
    unfold processTransactions
    rw [show sortTxs c10Txs = c10Txs from
      List.Sorted.insertionSort_eq
        (sorted_two _ _ (by norm_num [txle, fixTx0, c10Tx1]))]
    simp only [c10Txs, List.foldl_cons, List.foldl_nil]
    show step (step initState fixTx0) c10Tx1 = step fixS1 c10Tx1
    rw [fixStep1]
  refine ⟨rfl, ?_, by norm_num⟩
  unfold ledgerOf
  rw [hrun, step_disp _ _ (by simp [c10Tx1, isDisposalKind])]
  show ((fixS1.ledger ++ [(processDisposition fixS1 c10Tx1).2]).getD 1
    dummyEntry).cost_basis = some 18030
  simp only [fixS1, List.cons_append, List.nil_append, List.getD_cons_succ,
    List.getD_cons_zero]
  rw [procDisp_cost_basis]
  simp only [fixS1, c10Tx1]
  norm_num [acb_fix1]

/-- C10, amended: the engine's disposal path is a total function (it raises
nothing on a zero pool or zero price); against a pool with `total_units = 0`
the per-unit cost is defined as `0` and the emitted `cost_basis` is exactly
`0`.  A zero `unit_price` alone, however, does not zero the cost fields. -/
theorem c10_amended (s : EngineState) (tx : Transaction)
    (h : s.total_btc = 0) :
    acbPerBtc s.total_cost s.total_btc = 0 ∧
    (processDisposition s tx).2.cost_basis = some 0 := by
  have hz : acbPerBtc s.total_cost s.total_btc = 0 := by
    rw [h]
    exact acbPerBtc_nonpos _ _ le_rfl
  exact ⟨hz, by rw [procDisp_cost_basis, hz, mul_zero]⟩

/-- A reachable-shaped state with an empty pool but nonzero recorded cost. -/
def c10ZeroState : EngineState :=
  { total_cost := 5, total_btc := 0, ledger := [], recentTransactions := [] }

/-- Witness for `c10_amended` at a concrete empty-pool disposal. -/
theorem c10_amended_witness :
    acbPerBtc c10ZeroState.total_cost c10ZeroState.total_btc = 0 ∧
    (processDisposition c10ZeroState c10Tx1).2.cost_basis = some 0 :=
  c10_amended c10ZeroState c10Tx1 rfl

/-! C4: the ledger's continuity invariant, proved by an invariant over the
processing fold. -/

lemma procAcq_cost_basis (s : EngineState) (tx : Transaction) :
    (processAcquisition s tx).2.cost_basis = none := rfl

lemma procAcq_entry_cost_after (s : EngineState) (tx : Transaction) :
    (processAcquisition s tx).2.total_cost_after =
      (processAcquisition s tx).1.total_cost := rfl

lemma procAcq_entry_btc_after (s : EngineState) (tx : Transaction) :
    (processAcquisition s tx).2.total_btc_after =
      (processAcquisition s tx).1.total_btc := rfl

lemma procAcq_entry_acb (s : EngineState) (tx : Transaction) :
    (processAcquisition s tx).2.acb_per_btc =
      acbPerBtc (processAcquisition s tx).1.total_cost
        (processAcquisition s tx).1.total_btc := rfl

/-- The continuity relation between consecutive ledger entries: a disposal's
cost basis is its quantity times the previous entry's reported per-unit
cost. -/
def entryChain (e e2 : LedgerEntry) : Prop :=
  e2.cost_basis = none ∨
    e2.cost_basis = some (e2.amount_btc * e.acb_per_btc)

/-- Invariant carried through the fold: the ledger is chained, and the last
entry's snapshot agrees with the live pool (including its reported per-unit
cost). -/
def stateInv (s : EngineState) : Prop :=
  List.Chain' entryChain s.ledger ∧
  ∀ e, s.ledger.getLast? = some e →
    e.total_cost_after = s.total_cost ∧ e.total_btc_after = s.total_btc ∧
    e.acb_per_btc = acbPerBtc s.total_cost s.total_btc

lemma stateInv_init : stateInv initState := by
  constructor
  · exact List.chain'_nil
  · intro e he
    simp [initState] at he

lemma stateInv_step (s : EngineState) (tx : Transaction) (h : stateInv s) :
    stateInv (step s tx) := by
  obtain ⟨hc, hl⟩ := h
  by_cases ha : isAcquisitionKind tx.tx_type
  · rw [step_acq _ _ ha]
    constructor
    · show List.Chain' entryChain (s.ledger ++ [(processAcquisition s tx).2])
      refine List.Chain'.append hc (List.chain'_singleton _) ?_
      intro x _ y hy
      rw [List.head?_cons, Option.mem_some_iff] at hy
      exact Or.inl (hy ▸ procAcq_cost_basis s tx)
    · intro e he
      rw [show ({ (processAcquisition s tx).1 with
          ledger := s.ledger ++ [(processAcquisition s tx).2],
          recentTransactions :=
            s.recentTransactions ++ [tx] } : EngineState).ledger =
        s.ledger ++ [(processAcquisition s tx).2] from rfl] at he
      rw [List.getLast?_concat, Option.some_inj] at he
      subst he
      exact ⟨procAcq_entry_cost_after s tx, procAcq_entry_btc_after s tx,
        procAcq_entry_acb s tx⟩
  · by_cases hd : isDisposalKind tx.tx_type
    · rw [step_disp _ _ hd]
      constructor
      · show List.Chain' entryChain (s.ledger ++ [(processDisposition s tx).2])
        refine List.Chain'.append hc (List.chain'_singleton _) ?_
        intro x hx y hy
        rw [List.head?_cons, Option.mem_some_iff] at hy
        rw [Option.mem_def] at hx
        obtain ⟨-, -, hacb⟩ := hl x hx
        refine Or.inr ?_
        rw [← hy, procDisp_cost_basis, procDisp_amount, hacb]
      · intro e he
        rw [show ({ (processDisposition s tx).1 with
            ledger := s.ledger ++ [(processDisposition s tx).2],
            recentTransactions :=
              s.recentTransactions ++ [tx] } : EngineState).ledger =
          s.ledger ++ [(processDisposition s tx).2] from rfl] at he
        rw [List.getLast?_concat, Option.some_inj] at he
        subst he
        refine ⟨procDisp_entry_cost_after s tx, procDisp_entry_btc_after s tx,
          ?_⟩
        rw [procDisp_entry_acb]
    · rw [step_skip s tx (fun hr => hr.elim ha hd)]
      exact ⟨hc, hl⟩

lemma stateInv_fold (l : List Transaction) :
    ∀ s : EngineState, stateInv s → stateInv (List.foldl step s l) := by
  induction l with
  | nil => intro s h; exact h
  | cons tx l ih =>
    intro s h
    rw [List.foldl_cons]
    exact ih _ (stateInv_step s tx h)

lemma processTransactions_inv (s : EngineState) (txs : List Transaction) :
    stateInv (processTransactions s txs) := by
  unfold processTransactions
  exact stateInv_fold _ _ (by
    constructor
    · exact List.chain'_nil
    · intro e he
      simp at he)

/-- C4, confirmed: for every run and every ledger position `i + 1` holding a
disposal entry, its cost basis equals its quantity times the
`per_unit_cost_after` reported by the immediately preceding entry. -/
theorem c4_continuity (s : EngineState) (txs : List Transaction) (i : ℕ)
    (e e2 : LedgerEntry)
    (h1 : (processTransactions s txs).ledger.get? i = some e)
    (h2 : (processTransactions s txs).ledger.get? (i + 1) = some e2)
    (hd : e2.cost_basis ≠ none) :
    e2.cost_basis = some (e2.amount_btc * e.acb_per_btc) := by
  obtain ⟨hc, -⟩ := processTransactions_inv s txs
  obtain ⟨hlen1, hget1⟩ := List.get?_eq_some.mp h1
  obtain ⟨hlen2, hget2⟩ := List.get?_eq_some.mp h2
  have hchain := List.chain'_iff_get.mp hc i (by omega)
  rw [show (processTransactions s txs).ledger.get ⟨i, by omega⟩ = e from hget1,
    show (processTransactions s txs).ledger.get ⟨i + 1, by omega⟩ = e2 from
      hget2] at hchain
  rcases hchain with hnone | hsome
  · exact absurd hnone hd
  · exact hsome

/-- Witness for `c4_continuity`: in the fixture run, the disposal entry at
index 2 has cost basis `0.3 * 61773.33`, the per-unit cost reported by the
acquisition entry at index 1. -/
theorem c4_continuity_witness :
    fixE2.cost_basis = some (fixE2.amount_btc * fixE1.acb_per_btc) :=
  c4_continuity initState fixtureTxs 1 fixE1 fixE2
    (by rw [fixtureRun]; rfl) (by rw [fixtureRun]; rfl) (by simp [fixE2])

/-! C6: the superficial-loss detector. -/

lemma slPred_iff (tx r : Transaction) :
    slPred tx r = true ↔
      isAcquisitionKind r.tx_type ∧
        tx.date.t - 30 ≤ r.date.t ∧ r.date.t < tx.date.t := by
  simp [slPred, Bool.and_eq_true, decide_eq_true_eq]

lemma checkSL_flag_iff (recent : List Transaction) (tx : Transaction) :
    (checkSuperficialLoss recent tx).1 = true ↔
      ∃ r ∈ recent, isAcquisitionKind r.tx_type ∧
        tx.date.t - 30 ≤ r.date.t ∧ r.date.t < tx.date.t := by
  unfold checkSuperficialLoss
  cases hf : recent.find? (slPred tx) with
  | some r =>
    refine ⟨fun _ => ⟨r, List.mem_of_find?_eq_some hf,
      (slPred_iff tx r).mp (List.find?_some hf)⟩, fun _ => rfl⟩
  | none =>
    refine iff_of_false (by simp) ?_
    rintro ⟨r, hr, hprops⟩
    exact absurd ((slPred_iff tx r).mpr hprops) (List.find?_eq_none.mp hf r hr)

lemma checkSL_true_note (recent : List Transaction) (tx : Transaction)
    (h : (checkSuperficialLoss recent tx).1 = true) :
    ∃ r ∈ recent, isAcquisitionKind r.tx_type ∧
      tx.date.t - 30 ≤ r.date.t ∧ r.date.t < tx.date.t ∧
      (checkSuperficialLoss recent tx).2 = flaggedLossNote (dateStr r.date) := by
  unfold checkSuperficialLoss at h ⊢
  cases hf : recent.find? (slPred tx) with
  | some r =>
    obtain ⟨h1, h2, h3⟩ := (slPred_iff tx r).mp (List.find?_some hf)
    exact ⟨r, List.mem_of_find?_eq_some hf, h1, h2, h3, rfl⟩
  | none =>
    rw [hf] at h
    simp at h

lemma checkSL_false_note (recent : List Transaction) (tx : Transaction)
    (h : (checkSuperficialLoss recent tx).1 = false) :
    (checkSuperficialLoss recent tx).2 = forwardWindowNote := by
  unfold checkSuperficialLoss at h ⊢
  cases hf : recent.find? (slPred tx) with
  | some r => rw [hf] at h; simp at h
  | none => rfl

lemma procDisp_gain_eq (s : EngineState) (tx : Transaction) (g : ℚ)
    (hg : (processDisposition s tx).2.capital_gain = some g) :
    tx.amount_btc * tx.price_cad - tx.fee_cad -
      tx.amount_btc * acbPerBtc s.total_cost s.total_btc = g := by
  have h2 := procDisp_capital_gain s tx
  rw [hg] at h2
  exact Option.some_inj.mp h2.symm

lemma procDisp_flag_of_loss (s : EngineState) (tx : Transaction) (g : ℚ)
    (hg : (processDisposition s tx).2.capital_gain = some g) (hneg : g < 0) :
    (processDisposition s tx).2.superficial_loss_flag =
      (checkSuperficialLoss s.recentTransactions tx).1 := by
  rw [procDisp_flag, procDisp_gain_eq s tx g hg, if_pos hneg]

/-- Acquisition at day 0 used by the superficial-loss scenarios. -/
def slBuy : Transaction :=
  { date := ⟨0, 2024⟩, tx_type := "buy", amount_btc := 1, price_cad := 100 }

/-- Loss-making disposal 10 days after `slBuy`. -/
def sl10Sell : Transaction :=
  { date := ⟨10, 2024⟩, tx_type := "sell", amount_btc := 1, price_cad := 50 }

/-- Loss-making disposal 31 days after `slBuy`. -/
def sl31Sell : Transaction :=
  { date := ⟨31, 2024⟩, tx_type := "sell", amount_btc := 1, price_cad := 50 }

/-- Scenario input: acquisition 10 days before a loss-making disposal. -/
def sl10Txs : List Transaction :=
  [slBuy, sl10Sell]

/-- Scenario input: acquisition 31 days before a loss-making disposal. -/
def sl31Txs : List Transaction :=
  [slBuy, sl31Sell]

lemma acb_100 : acbPerBtc 100 1 = 100 := by
  rw [acbPerBtc_pos_eq 100 1 10000 (by norm_num) (by norm_num) (by norm_num)
    (by norm_num)]
  norm_num

/-- Entry emitted for `slBuy`. -/
def slE0 : LedgerEntry :=
  { date := ⟨0, 2024⟩, tx_type := "buy", amount_btc := 1, price_cad := 100,
    fee_cad := 0, total_cost_after := 100, total_btc_after := 1,
    acb_per_btc := 100 }

/-- State after `slBuy`. -/
def slS1 : EngineState :=
  { total_cost := 100, total_btc := 1, ledger := [slE0],
    recentTransactions := [slBuy] }

lemma slStep1 : step initState slBuy = slS1 := by
  rw [step_acq _ _ (by simp [slBuy, isAcquisitionKind])]
  rw [procAcq_state, procAcq_entry]
  simp only [slS1, slE0, slBuy, initState]
  norm_num [acb_100]

lemma sl10Run : processTransactions initState sl10Txs = step slS1 sl10Sell := by
  unfold processTransactions
  rw [show sortTxs sl10Txs = sl10Txs from
    List.Sorted.insertionSort_eq
      (sorted_two _ _ (by norm_num [txle, slBuy, sl10Sell]))]
  simp only [sl10Txs, List.foldl_cons, List.foldl_nil]
  show step (step initState slBuy) sl10Sell = step slS1 sl10Sell
  rw [slStep1]

lemma sl31Run : processTransactions initState sl31Txs = step slS1 sl31Sell := by
  unfold processTransactions
  rw [show sortTxs sl31Txs = sl31Txs from
    List.Sorted.insertionSort_eq
      (sorted_two _ _ (by norm_num [txle, slBuy, sl31Sell]))]
  simp only [sl31Txs, List.foldl_cons, List.foldl_nil]
  show step (step initState slBuy) sl31Sell = step slS1 sl31Sell
  rw [slStep1]

lemma checkSL_sl10 : (checkSuperficialLoss [slBuy] sl10Sell).1 = true := by
  unfold checkSuperficialLoss
  rw [List.find?_cons_of_pos _ ((slPred_iff sl10Sell slBuy).mpr
    ⟨Or.inl rfl, by norm_num [slBuy, sl10Sell], by norm_num [slBuy, sl10Sell]⟩)]

lemma checkSL_sl31 : (checkSuperficialLoss [slBuy] sl31Sell).1 = false := by
  unfold checkSuperficialLoss
  rw [List.find?_cons_of_neg _ (fun hp => by
    obtain ⟨-, h2, -⟩ := (slPred_iff sl31Sell slBuy).mp hp
    norm_num [slBuy, sl31Sell] at h2), List.find?_nil]

lemma sl10_gain : ((ledgerOf sl10Txs).getD 1 dummyEntry).capital_gain =
    some (-50) := by
  unfold ledgerOf
  rw [sl10Run, step_disp _ _ (by simp [sl10Sell, isDisposalKind])]
  show ((slS1.ledger ++ [(processDisposition slS1 sl10Sell).2]).getD 1
    dummyEntry).capital_gain = some (-50)
  simp only [slS1, List.cons_append, List.nil_append, List.getD_cons_succ,
    List.getD_cons_zero]
  rw [procDisp_capital_gain]
  simp only [slS1, sl10Sell]
  norm_num [acb_100]

lemma sl31_gain : ((ledgerOf sl31Txs).getD 1 dummyEntry).capital_gain =
    some (-50) := by
  unfold ledgerOf
  rw [sl31Run, step_disp _ _ (by simp [sl31Sell, isDisposalKind])]
  show ((slS1.ledger ++ [(processDisposition slS1 sl31Sell).2]).getD 1
    dummyEntry).capital_gain = some (-50)
  simp only [slS1, List.cons_append, List.nil_append, List.getD_cons_succ,
    List.getD_cons_zero]
  rw [procDisp_capital_gain]
  simp only [slS1, sl31Sell]
  norm_num [acb_100]

lemma sl10_flag : ((ledgerOf sl10Txs).getD 1 dummyEntry).superficial_loss_flag =
    true := by
  unfold ledgerOf
  rw [sl10Run, step_disp _ _ (by simp [sl10Sell, isDisposalKind])]
  show ((slS1.ledger ++ [(processDisposition slS1 sl10Sell).2]).getD 1
    dummyEntry).superficial_loss_flag = true
  rw [show slS1.ledger = [slE0] from rfl]
  simp only [List.cons_append, List.nil_append, List.getD_cons_succ,
    List.getD_cons_zero]
  rw [procDisp_flag_of_loss slS1 sl10Sell (-50) ?hg (by norm_num)]
  · exact checkSL_sl10
  case hg =>
    rw [procDisp_capital_gain]
    simp only [slS1, sl10Sell]
    norm_num [acb_100]

lemma sl31_flag : ((ledgerOf sl31Txs).getD 1 dummyEntry).superficial_loss_flag =
    false := by
  unfold ledgerOf
  rw [sl31Run, step_disp _ _ (by simp [sl31Sell, isDisposalKind])]
  show ((slS1.ledger ++ [(processDisposition slS1 sl31Sell).2]).getD 1
    dummyEntry).superficial_loss_flag = false
  rw [show slS1.ledger = [slE0] from rfl]
  simp only [List.cons_append, List.nil_append, List.getD_cons_succ,
    List.getD_cons_zero]
  rw [procDisp_flag_of_loss slS1 sl31Sell (-50) ?hg (by norm_num)]
  · exact checkSL_sl31
  case hg =>
    rw [procDisp_capital_gain]
    simp only [slS1, sl31Sell]
    norm_num [acb_100]

/-- C6, confirmed: on a loss, the entry's superficial-loss flag is true iff an
earlier-processed acquisition-kind transaction falls in the half-open window
`[disposal - 30 days, disposal)`; a true flag comes with a note naming the
disqualifying acquisition's date and ending in the forward-window reminder
("Review if still held 30 days after sale."), and a false flag comes with the
note asking the caller to check purchases within 30 days after the sale; in
the concrete runs, an acquisition 10 days before a loss-making disposal sets
the flag and an acquisition 31 days before does not. -/
theorem c6_superficial :
    (∀ (s : EngineState) (tx : Transaction) (g : ℚ),
      (processDisposition s tx).2.capital_gain = some g → g < 0 →
      ((processDisposition s tx).2.superficial_loss_flag = true ↔
        ∃ r ∈ s.recentTransactions, isAcquisitionKind r.tx_type ∧
          tx.date.t - 30 ≤ r.date.t ∧ r.date.t < tx.date.t)) ∧
    (∀ (recent : List Transaction) (tx : Transaction),
      (checkSuperficialLoss recent tx).1 = true →
      ∃ r ∈ recent, isAcquisitionKind r.tx_type ∧
        tx.date.t - 30 ≤ r.date.t ∧ r.date.t < tx.date.t ∧
        (checkSuperficialLoss recent tx).2 = flaggedLossNote (dateStr r.date)) ∧
    (∀ (recent : List Transaction) (tx : Transaction),
      (checkSuperficialLoss recent tx).1 = false →
      (checkSuperficialLoss recent tx).2 = forwardWindowNote) ∧
    ((ledgerOf sl10Txs).getD 1 dummyEntry).capital_gain = some (-50) ∧
    ((ledgerOf sl10Txs).getD 1 dummyEntry).superficial_loss_flag = true ∧
    ((ledgerOf sl31Txs).getD 1 dummyEntry).capital_gain = some (-50) ∧
    ((ledgerOf sl31Txs).getD 1 dummyEntry).superficial_loss_flag = false := by
  refine ⟨?_, checkSL_true_note, checkSL_false_note, sl10_gain, sl10_flag,
    sl31_gain, sl31_flag⟩
  intro s tx g hg hneg
  rw [procDisp_flag_of_loss s tx g hg hneg]
  exact checkSL_flag_iff s.recentTransactions tx

/-- Witness for `c6_superficial`: its universally quantified conjuncts applied
at the concrete 10-day scenario. -/
theorem c6_superficial_witness :
    (((processDisposition slS1 sl10Sell).2.superficial_loss_flag = true) ↔
      ∃ r ∈ slS1.recentTransactions, isAcquisitionKind r.tx_type ∧
        sl10Sell.date.t - 30 ≤ r.date.t ∧ r.date.t < sl10Sell.date.t) ∧
    (∃ r ∈ [slBuy], isAcquisitionKind r.tx_type ∧
      sl10Sell.date.t - 30 ≤ r.date.t ∧ r.date.t < sl10Sell.date.t ∧
      (checkSuperficialLoss [slBuy] sl10Sell).2 =
        flaggedLossNote (dateStr r.date)) ∧
    (checkSuperficialLoss [] sl10Sell).2 = forwardWindowNote :=
  ⟨c6_superficial.1 slS1 sl10Sell (-50)
      (by
        rw [procDisp_capital_gain]
        simp only [slS1, sl10Sell]
        norm_num [acb_100])
      (by norm_num),
   c6_superficial.2.1 [slBuy] sl10Sell checkSL_sl10,
   c6_superficial.2.2.1 [] sl10Sell rfl⟩

/-! C7: the period summarizer. -/

lemma summaryFold_head_none (a b : ℚ) (c : ℕ) (e : LedgerEntry)
    (hg : e.capital_gain = none) :
    summaryFold (a, b, c) e = (a, b, c) := by
  unfold summaryFold
  rw [hg]

lemma summaryFold_head_gain (a b : ℚ) (c : ℕ) (e : LedgerEntry) (g : ℚ)
    (hg : e.capital_gain = some g) (h0 : 0 ≤ g) :
    summaryFold (a, b, c) e = (a + g, b, c) := by
  unfold summaryFold
  rw [hg]
  exact if_pos h0

lemma summaryFold_head_flagged (a b : ℚ) (c : ℕ) (e : LedgerEntry) (g : ℚ)
    (hg : e.capital_gain = some g) (h0 : ¬ 0 ≤ g)
    (hf : e.superficial_loss_flag = true) :
    summaryFold (a, b, c) e = (a, b, c + 1) := by
  unfold summaryFold
  rw [hg]
  exact (if_neg h0).trans (if_pos hf)

lemma summaryFold_head_loss (a b : ℚ) (c : ℕ) (e : LedgerEntry) (g : ℚ)
    (hg : e.capital_gain = some g) (h0 : ¬ 0 ≤ g)
    (hf : e.superficial_loss_flag = false) :
    summaryFold (a, b, c) e = (a, b + |g|, c) := by
  unfold summaryFold
  rw [hg]
  exact (if_neg h0).trans (if_neg (by rw [hf]; exact Bool.false_ne_true))

lemma summaryFold_spec (es : List LedgerEntry) :
    ∀ a b : ℚ, ∀ c : ℕ,
      es.foldl summaryFold (a, b, c) =
        (a + specTotalGains es, b + specTotalLosses es,
          c + specFlaggedCount es) := by
  induction es with
  | nil =>
    intro a b c
    simp [specTotalGains, specTotalLosses, specFlaggedCount]
  | cons e es ih =>
    intro a b c
    rw [List.foldl_cons]
    cases hg : e.capital_gain with
    | none =>
      rw [summaryFold_head_none a b c e hg, ih]
      simp [specTotalGains, specTotalLosses, specFlaggedCount,
        List.filterMap_cons, List.countP_cons, hg]
    | some g =>
      by_cases h0 : 0 ≤ g
      · have hng : ¬ g < 0 := not_lt.mpr h0
        rw [summaryFold_head_gain a b c e g hg h0, ih]
        simp [specTotalGains, specTotalLosses, specFlaggedCount,
          List.filterMap_cons, List.countP_cons, hg, h0, hng, Prod.ext_iff]
        ring
      · have hlt : g < 0 := not_le.mp h0
        cases hf : e.superficial_loss_flag with
        | true =>
          rw [summaryFold_head_flagged a b c e g hg h0 hf, ih]
          simp [specTotalGains, specTotalLosses, specFlaggedCount,
            List.filterMap_cons, List.countP_cons, hg, h0, hlt, hf,
            Prod.ext_iff]
          omega
        | false =>
          rw [summaryFold_head_loss a b c e g hg h0 hf, ih]
          simp [specTotalGains, specTotalLosses, specFlaggedCount,
            List.filterMap_cons, List.countP_cons, hg, h0, hlt, hf,
            Prod.ext_iff]
          ring

/-- A ledger entry carrying only the single gain `+2463.00`. -/
def c7Entry : LedgerEntry :=
  { date := ⟨100, 2024⟩, tx_type := "sell", amount_btc := 1,
    price_cad := 2463, fee_cad := 0, total_cost_after := 0,
    total_btc_after := 0, acb_per_btc := 0, proceeds := some 2463,
    cost_basis := some 0, capital_gain := some 2463 }

/-- A state whose ledger holds exactly the single-gain entry. -/
def c7State : EngineState :=
  { total_cost := 0, total_btc := 0, ledger := [c7Entry],
    recentTransactions := [] }

/-- C7, confirmed: for every ledger slice and optional year filter, the
summary's gains total is the sum of `gain` over entries carrying `gain ≥ 0`,
the losses total is the sum of `|gain|` over unflagged entries with
`gain < 0` (flagged losses count only toward the flagged-loss counter),
`net = gains - losses`, and `taxable = max 0 (net * 1/2)` at the default
one-half inclusion rate; a ledger holding the single gain `+2463.00` yields
totals `2463.00 / 0 / 2463.00 / 1231.50`. -/
theorem c7_summary :
    (∀ (s : EngineState) (y : Option ℤ),
      (getSummary s y).total_gains =
        specTotalGains (summaryEntries s.ledger y) ∧
      (getSummary s y).total_losses =
        specTotalLosses (summaryEntries s.ledger y) ∧
      (getSummary s y).superficial_loss_count =
        specFlaggedCount (summaryEntries s.ledger y) ∧
      (getSummary s y).net_capital_gain =
        (getSummary s y).total_gains - (getSummary s y).total_losses ∧
      (getSummary s y).inclusion_rate = 1 / 2 ∧
      (getSummary s y).taxable_capital_gain =
        max 0 ((getSummary s y).net_capital_gain * (1 / 2))) ∧
    (getSummary c7State none).total_gains = 2463 ∧
    (getSummary c7State none).total_losses = 0 ∧
    (getSummary c7State none).net_capital_gain = 2463 ∧
    (getSummary c7State none).taxable_capital_gain = 1231.50 := by
  have key : ∀ (s : EngineState) (y : Option ℤ),
      (summaryEntries s.ledger y).foldl summaryFold (0, 0, 0) =
        (specTotalGains (summaryEntries s.ledger y),
          specTotalLosses (summaryEntries s.ledger y),
          specFlaggedCount (summaryEntries s.ledger y)) := by
    intro s y
    rw [summaryFold_spec]
    simp
  constructor
  · intro s y
    refine ⟨?_, ?_, ?_, ?_, ?_, ?_⟩
    · show ((summaryEntries s.ledger y).foldl summaryFold (0, 0, 0)).1 = _
      rw [key]
    · show ((summaryEntries s.ledger y).foldl summaryFold (0, 0, 0)).2.1 = _
      rw [key]
    · show ((summaryEntries s.ledger y).foldl summaryFold (0, 0, 0)).2.2 = _
      rw [key]
    · rfl
    · show (0.50 : ℚ) = 1 / 2
      norm_num
    · show max 0 ((getSummary s y).net_capital_gain * (0.50 : ℚ)) =
        max 0 ((getSummary s y).net_capital_gain * (1 / 2))
      rw [show (0.50 : ℚ) = 1 / 2 by norm_num]
  · have hent : summaryEntries c7State.ledger none = [c7Entry] := rfl
    have hfold : ([c7Entry].foldl summaryFold ((0 : ℚ), (0 : ℚ), (0 : ℕ))) =
        (2463, 0, 0) := by
      rw [List.foldl_cons, List.foldl_nil,
        summaryFold_head_gain 0 0 0 c7Entry 2463 rfl (by norm_num)]
      norm_num
    refine ⟨?_, ?_, ?_, ?_⟩
    · show ((summaryEntries c7State.ledger none).foldl summaryFold
        (0, 0, 0)).1 = 2463
      rw [hent, hfold]
    · show ((summaryEntries c7State.ledger none).foldl summaryFold
        (0, 0, 0)).2.1 = 0
      rw [hent, hfold]
    · show ((summaryEntries c7State.ledger none).foldl summaryFold
          (0, 0, 0)).1 -
        ((summaryEntries c7State.ledger none).foldl summaryFold
          (0, 0, 0)).2.1 = 2463
      rw [hent, hfold]
      norm_num
    · show max 0
        ((((summaryEntries c7State.ledger none).foldl summaryFold
            (0, 0, 0)).1 -
          ((summaryEntries c7State.ledger none).foldl summaryFold
            (0, 0, 0)).2.1) * (0.50 : ℚ)) = 1231.50
      rw [hent, hfold]
      norm_num

/-! C8: sorting, stability, and determinism of `process`. -/

lemma filter_orderedInsert (k : ℚ) (a : Transaction)
    (l : List Transaction) :
    (List.orderedInsert txle a l).filter (fun x => x.date.t = k) =
      if a.date.t = k then
        a :: l.filter (fun x => x.date.t = k)
      else l.filter (fun x => x.date.t = k) := by
  induction l with
  | nil =>
    simp only [List.orderedInsert, List.filter]
    by_cases hak : a.date.t = k
    · rw [if_pos hak]
      simp [hak]
    · rw [if_neg hak]
      simp [hak]
  | cons b l ih =>
    rw [List.orderedInsert]
    by_cases hab : txle a b
    · rw [if_pos hab]
      by_cases hak : a.date.t = k
      · rw [if_pos hak]
        simp [List.filter_cons, hak]
      · rw [if_neg hak]
        simp [List.filter_cons, hak]
    · rw [if_neg hab]
      have hba : b.date.t < a.date.t := not_le.mp hab
      by_cases hak : a.date.t = k
      · have hbk : ¬ b.date.t = k := by
          rw [← hak]
          exact ne_of_lt hba
        rw [if_pos hak]
        simp only [List.filter_cons, hbk, ih, if_pos hak]
        simp [hbk]
      · rw [if_neg hak]
        by_cases hbk : b.date.t = k <;>
          simp [List.filter_cons, hbk, ih, if_neg hak]

lemma filter_sortTxs (txs : List Transaction) (k : ℚ) :
    (sortTxs txs).filter (fun x => x.date.t = k) =
      txs.filter (fun x => x.date.t = k) := by
  unfold sortTxs
  induction txs with
  | nil => rfl
  | cons a l ih =>
    rw [List.insertionSort, filter_orderedInsert]
    by_cases hak : a.date.t = k
    · rw [if_pos hak, ih]
      simp [List.filter_cons, hak]
    · rw [if_neg hak, ih]
      simp [List.filter_cons, hak]

/-- C8, confirmed: the engine sorts its input ascending by timestamp with a
stable sort (elements with equal sort keys keep their relative input order:
filtering by any key commutes with the sort), and `process` resets all
calculator state first, so its result — in particular the emitted ledger —
does not depend on the calculator's prior state: two runs on the same input
produce identical ledger sequences. -/
theorem c8_deterministic :
    (∀ (s1 s2 : EngineState) (txs : List Transaction),
      processTransactions s1 txs = processTransactions s2 txs) ∧
    (∀ txs : List Transaction, List.Sorted txle (sortTxs txs)) ∧
    (∀ (txs : List Transaction) (k : ℚ),
      (sortTxs txs).filter (fun x => x.date.t = k) =
        txs.filter (fun x => x.date.t = k)) :=
  ⟨fun _ _ _ => rfl, fun txs => List.sorted_insertionSort txle txs,
    filter_sortTxs⟩

end GhostLedger
